import Mathlib

/-! Formal model of the proost kernel (`kernel/src`): universe levels with
normalizing interning, de Bruijn terms, substitution and weak-head reduction,
the equality schema's ι-reducer, conversion, type inference with error traces,
and the arena's name-binding tables.

Terms and levels are modelled as plain inductive types; by the interning
invariant of the arena (two dwellers are equal in memory iff their payloads are
structurally equal), handle equality in the source corresponds to structural
equality `=` here.  Definitions are transcribed from the Rust source wherever
the file is available (`type_checker.rs`, `axiom/equality.rs`,
`memory/arena.rs`, `memory/level/mod.rs`); the parts of the kernel whose files
are not available (the `calculus` module with `shift`/`substitute`/`whnf`, the
`memory/term` and `memory/declaration` modules, `trace.rs`, and the
level-equivalence decision `is_eq`) are modelled from the specification and
carry a doc comment starting with `Modelled from the spec:`.

The mutually recursive reduction/conversion/inference cluster is not total on
ill-typed inputs, so it is embedded with an explicit fuel parameter; every
recursive call consumes one unit.  Fuel only bounds the recursion depth: on any
run that the Rust kernel completes, a large enough fuel computes the same
answer, and all theorems are stated with explicit fuels. -/

namespace Proost

/-- Universe levels (`kernel/src/memory/level/mod.rs`, `Payload`).  `add`
carries the increment of the source's `Add(Level, u32)`. -/
inductive Level where
  | zero : Level
  | add : Level → Nat → Level
  | max : Level → Level → Level
  | imax : Level → Level → Level
  | var : Nat → Level
deriving DecidableEq, Repr

/-- Node count of a level, used as the fuel bound for normalization. -/
def Level.size : Level → Nat
  | .zero => 1
  | .var _ => 1
  | .add u _ => u.size + 1
  | .max u v => u.size + v.size + 1
  | .imax u v => u.size + v.size + 1

/-- Whether the head constructor is `add`. -/
def Level.isAdd : Level → Bool
  | .add _ _ => true
  | _ => false

/-- Whether the head constructor is `var`. -/
def Level.isVar : Level → Bool
  | .var _ => true
  | _ => false

/-- Whether the level is `zero`. -/
def Level.isZero : Level → Bool
  | .zero => true
  | _ => false

/-- `Level::add` routed through `hashcons`, i.e. the `Add` arms of
`Level::normalize` (`level/mod.rs` lines 183-184): `Add(u, 0) = u` and
`Add(Add(u, n), k) = Add(u, n + k)`. -/
def Level.mkAdd : Level → Nat → Level
  | u, 0 => u
  | .add u n, k => Level.mkAdd u (n + k)
  | u, k => .add u k

/-- Fueled body of `Level::max` routed through `hashcons`: the `Max` arm of
`Level::normalize` (`level/mod.rs` lines 167-181).  The recursive occurrences
re-enter `hashcons` in the source; the fuel only bounds that recursion. -/
def Level.mkMaxF : Nat → Level → Level → Level
  | 0, u, v => .max u v
  | fuel + 1, u, v =>
    if u = v then u
    else
      match u, v with
      | .zero, v => v
      | u, .zero => u
      | .add uu k1, .add vv k2 =>
        let m := Nat.min k1 k2
        Level.mkAdd (Level.mkMaxF fuel (Level.mkAdd uu (k1 - m)) (Level.mkAdd vv (k2 - m))) m
      | u, v => .max u v

/-- `Level::max` routed through `hashcons` (normalizing constructor). -/
def Level.mkMax (u v : Level) : Level := Level.mkMaxF (u.size + v.size) u v

/-- Fueled body of `Level::imax` routed through `hashcons`: the `IMax` arm of
`Level::normalize` (`level/mod.rs` lines 153-165). -/
def Level.mkIMaxF : Nat → Level → Level → Level
  | 0, u, v => .imax u v
  | fuel + 1, u, v =>
    if u = v then u
    else
      match v with
      | .zero => .zero
      | .add _ _ => Level.mkMax u v
      | .imax _ vw => Level.mkMax (Level.mkIMaxF fuel u vw) v
      | .max vv vw => Level.mkMax (Level.mkIMaxF fuel u vv) (Level.mkIMaxF fuel u vw)
      | v => .imax u v

/-- `Level::imax` routed through `hashcons` (normalizing constructor). -/
def Level.mkIMax (u v : Level) : Level := Level.mkIMaxF v.size u v

/-- The single interning step `Level::hashcons`/`Level::normalize` applied to a
payload whose children are already stored levels. -/
def Level.normalize : Level → Level
  | .add u k => Level.mkAdd u k
  | .max u v => Level.mkMax u v
  | .imax u v => Level.mkIMax u v
  | l => l

/-- Re-interning a level bottom-up: every node re-enters `hashcons`.  This is
what building the level through the arena's level constructors produces. -/
def Level.renorm : Level → Level
  | .zero => .zero
  | .var i => .var i
  | .add u k => Level.mkAdd u.renorm k
  | .max u v => Level.mkMax u.renorm v.renorm
  | .imax u v => Level.mkIMax u.renorm v.renorm

/-- The reduced-form invariant of stored levels: no arm of `Level::normalize`
fires anywhere in the level (children being reduced, an `add` carries a nonzero
increment over a non-`add`; a `max` has distinct non-zero children that are not
both `add`; an `imax` has a variable on the right distinct from the left). -/
def Level.reduced : Level → Bool
  | .zero => true
  | .var _ => true
  | .add u k => decide (k ≠ 0) && !u.isAdd && u.reduced
  | .max u v =>
    u.reduced && v.reduced && decide (u ≠ v) && !u.isZero && !v.isZero && !(u.isAdd && v.isAdd)
  | .imax u v => u.reduced && v.reduced && decide (u ≠ v) && v.isVar

/-- Modelled from the spec: the first universe variable occurring as the
right-hand side of a stuck `imax`, the case-split pivot of the
level-equivalence decision (§4.B); the `is_eq` procedure is not part of the
available sources. -/
def Level.stuckVar : Level → Option Nat
  | .zero => none
  | .var _ => none
  | .add u _ => u.stuckVar
  | .max u v => u.stuckVar.orElse fun _ => v.stuckVar
  | .imax u v =>
    match v with
    | .var i => some i
    | _ => u.stuckVar.orElse fun _ => v.stuckVar

/-- One above the largest universe variable of a level (hence a fresh one). -/
def Level.maxVar : Level → Nat
  | .zero => 0
  | .var i => i + 1
  | .add u _ => u.maxVar
  | .max u v => Nat.max u.maxVar v.maxVar
  | .imax u v => Nat.max u.maxVar v.maxVar

/-- Modelled from the spec: substitution of one universe variable followed by
re-interning, which re-normalizes (§4.B). -/
def Level.substVar (i : Nat) (s : Level) : Level → Level
  | .zero => .zero
  | .var j => if j = i then s else .var j
  | .add u k => Level.mkAdd (Level.substVar i s u) k
  | .max u v => Level.mkMax (Level.substVar i s u) (Level.substVar i s v)
  | .imax u v => Level.mkIMax (Level.substVar i s u) (Level.substVar i s v)

/-- Modelled from the spec: the level-equivalence decision (§4.B): attempt
structural equality; if it fails and a stuck `imax(·, u_i)` is present,
substitute `u_i := 0` and `u_i := u_j + 1` (fresh `u_j`) on both sides and
recurse; with no stuck `imax` left, fail.  Fueled because the source's
termination argument (each case split eliminates one stuck variable) is
external to the recursion. -/
def Level.isEq : Nat → Level → Level → Bool
  | 0, _, _ => false
  | fuel + 1, l1, l2 =>
    if l1 = l2 then true
    else
      match l1.stuckVar.orElse fun _ => l2.stuckVar with
      | some i =>
        let fresh := Nat.max l1.maxVar l2.maxVar
        Level.isEq fuel (Level.substVar i .zero l1) (Level.substVar i .zero l2)
          && Level.isEq fuel (Level.substVar i (.add (.var fresh) 1) l1)
            (Level.substVar i (.add (.var fresh) 1) l2)
      | none => false

/-- Modelled from the spec: `substitute_univs` — simultaneous substitution of
universe variables by the instantiation vector, with re-interning (§4.B,
§4.H).  A variable beyond the vector is left in place. -/
def Level.substUnivs (ls : List Level) : Level → Level
  | .zero => .zero
  | .var i => ls.getD i (.var i)
  | .add u k => Level.mkAdd (Level.substUnivs ls u) k
  | .max u v => Level.mkMax (Level.substUnivs ls u) (Level.substUnivs ls v)
  | .imax u v => Level.mkIMax (Level.substUnivs ls u) (Level.substUnivs ls v)

/-- The built-in constants of the equality schema
(`kernel/src/axiom/equality.rs`, `enum Equality`).  Only the equality schema is
present in the available sources; it is the one exercised by the claims. -/
inductive Ax where
  | eq_ : Ax
  | eqRec : Ax
  | refl : Ax
deriving DecidableEq, Repr

/-- De Bruijn terms (`kernel/src/memory/term`, `Payload`; the payload grammar
is fixed by §3 of the spec and by its uses in `type_checker.rs`).  `var`
carries the cached type; `axm` is the source's `Axiom(k, L̄)` variant; `decl`
is an instantiated declaration, carrying the declaration's body and arity
together with the instantiation level vector (§3, §4.H). -/
inductive Term where
  | var : Nat → Term → Term
  | sort : Level → Term
  | app : Term → Term → Term
  | abs : Term → Term → Term
  | prod : Term → Term → Term
  | axm : Ax → List Level → Term
  | decl : Term → Nat → List Level → Term
deriving DecidableEq, Repr

/-- A trace breadcrumb (`trace.rs`, modelled from the spec §4.G and the
expected traces of the tests in `type_checker.rs`). -/
inductive TraceTag where
  | left : TraceTag
  | right : TraceTag
deriving DecidableEq, Repr

/-- The error kinds of `type_checker.rs` (`enum ErrorKind`).  The source's
`TypedTerm(t, ty)` pretty-printing pair is flattened into two consecutive
arguments.  `outOfFuel` is the embedding's fuel-exhaustion marker; it is not a
source error and no theorem mentions it. -/
inductive KErrorKind where
  | notUniverse : Term → KErrorKind
  | notDefEq : Term → Term → KErrorKind
  | wrongArgumentType : Term → Term → Term → Term → KErrorKind
  | notAFunction : Term → Term → Term → KErrorKind
  | typeMismatch : Term → Term → KErrorKind
  | outOfFuel : KErrorKind
deriving DecidableEq, Repr

/-- A kernel error: a kind plus the trace of `Left`/`Right` breadcrumbs,
innermost first (`error.rs`/`trace.rs`, modelled from the spec §4.G and the
literal traces asserted by the tests in `type_checker.rs`). -/
structure KError where
  kind : KErrorKind
  trace : List TraceTag
deriving DecidableEq, Repr

/-- Modelled from the spec (§7) and the tests' expected traces:
`trace_err` pushes one breadcrumb onto the error's trace as recursion
unwinds (`Vec::push`, so outer breadcrumbs sit at the end of the list). -/
def traceErr (e : KError) (t : TraceTag) : KError :=
  { e with trace := e.trace ++ [t] }

/-- Modelled from the spec: `shift(t, n, k)` (§4.D, `calculus` module, not in
the available sources) increments every free variable (index `> k`) by `n`;
the variable's cached type is shifted consistently. -/
def Term.shift (n k : Nat) : Term → Term
  | .var i ty => .var (if k < i then i + n else i) (Term.shift n k ty)
  | .sort l => .sort l
  | .app f a => .app (Term.shift n k f) (Term.shift n k a)
  | .abs ty b => .abs (Term.shift n k ty) (Term.shift n (k + 1) b)
  | .prod ty b => .prod (Term.shift n k ty) (Term.shift n (k + 1) b)
  | .axm a ls => .axm a ls
  | .decl b ar ls => .decl b ar ls

/-- Modelled from the spec: `substitute(t, u, depth)` (§4.D, `calculus`
module) replaces `Var(depth)` in `t` by a properly shifted `u` and adjusts
variables above `depth` down by one. -/
def Term.substitute (t u : Term) (depth : Nat) : Term :=
  match t with
  | .var i ty =>
    if i = depth then u.shift (depth - 1) 0
    else if depth < i then .var (i - 1) (Term.substitute ty u depth)
    else .var i (Term.substitute ty u depth)
  | .sort l => .sort l
  | .app f a => .app (Term.substitute f u depth) (Term.substitute a u depth)
  | .abs ty b => .abs (Term.substitute ty u depth) (Term.substitute b u (depth + 1))
  | .prod ty b => .prod (Term.substitute ty u depth) (Term.substitute b u (depth + 1))
  | .axm a ls => .axm a ls
  | .decl b ar ls => .decl b ar ls

/-- Modelled from the spec: universe substitution on a term (§4.H): the
instantiation vector is substituted into every level of the term. -/
def Term.substUnivs (σ : List Level) : Term → Term
  | .var i ty => .var i (Term.substUnivs σ ty)
  | .sort l => .sort (l.substUnivs σ)
  | .app f a => .app (Term.substUnivs σ f) (Term.substUnivs σ a)
  | .abs ty b => .abs (Term.substUnivs σ ty) (Term.substUnivs σ b)
  | .prod ty b => .prod (Term.substUnivs σ ty) (Term.substUnivs σ b)
  | .axm a ls => .axm a (ls.map (Level.substUnivs σ))
  | .decl b ar ls => .decl b ar (ls.map (Level.substUnivs σ))

/-- Modelled from the spec: `unfold(t)` (§4.D) yields the body of an
instantiated declaration with its universe substitution applied
(`Decl::get_term`, §4.H), and any other term unchanged. -/
def Term.unfold : Term → Term
  | .decl b _ ls => b.substUnivs ls
  | t => t

/-- `Term::imax` from `type_checker.rs` lines 107-118: the universe of
`(x : A) → B` from the whnf-ed inferred sorts of `A` and `B`; a non-sort on
either side is a `NotUniverse` error traced `Left`/`Right`. -/
def imaxTC : Term → Term → Except KError Term
  | .sort l1, .sort l2 => .ok (.sort (l1.mkIMax l2))
  | .sort _, rhs => .error ⟨.notUniverse rhs, [.right]⟩
  | lhs, _ => .error ⟨.notUniverse lhs, [.left]⟩

/-- `Equality::type_eq` (`axiom/equality.rs` lines 94-105):
`Eq.{u} : (A : Sort u) → A → A → Prop`. -/
def typeEq : Term :=
  .prod (.sort (.var 0))
    (.prod (.var 1 (.sort (.var 0)))
      (.prod (.var 2 (.sort (.var 0))) (.sort .zero)))

/-- `Equality::type_refl` (`axiom/equality.rs` lines 208-230):
`Refl.{u} : (A : Sort u) → (a : A) → Eq.{u} A a a`. -/
def typeRefl : Term :=
  .prod (.sort (.var 0))
    (.prod (.var 1 (.sort (.var 0)))
      (.app
        (.app
          (.app (.axm .eq_ [.var 0]) (.var 2 (.sort (.var 0))))
          (.var 1 (.sort (.var 0))))
        (.var 1 (.sort (.var 0)))))

/-- The `motive` sub-term of `Equality::type_eq_rec`
(`axiom/equality.rs` lines 114-135): `(b : A) → Eq A a b → Sort v`. -/
def eqRecMotive : Term :=
  .prod (.var 2 (.sort (.var 0)))
    (.prod
      (.app
        (.app
          (.app (.axm .eq_ [.var 0]) (.var 3 (.sort (.var 0))))
          (.var 2 (.sort (.var 0))))
        (.var 1 (.sort (.var 0))))
      (.sort (.var 1)))

/-- `Equality::type_eq_rec` (`axiom/equality.rs` lines 107-206):
`Eq_rec.{u,v} : (A : Sort u) → (a : A) → (motive : (b : A) → Eq A a b →
Sort v) → motive a (Refl A a) → (b : A) → (p : Eq A a b) → motive b p`. -/
def typeEqRec : Term :=
  .prod (.sort (.var 0))
    (.prod (.var 1 (.sort (.var 0)))
      (.prod eqRecMotive
        (.prod
          (.app
            (.app (.var 1 eqRecMotive) (.var 2 (.sort (.var 0))))
            (.app
              (.app (.axm .refl [.var 0]) (.var 3 (.sort (.var 0))))
              (.var 2 (.sort (.var 0)))))
          (.prod (.var 4 (.sort (.var 0)))
            (.prod
              (.app
                (.app
                  (.app (.axm .eq_ [.var 0]) (.var 5 (.sort (.var 0))))
                  (.var 4 (.sort (.var 0))))
                (.var 1 (.sort (.var 0))))
              (.app
                (.app (.var 4 eqRecMotive) (.var 2 (.sort (.var 0))))
                (.var 1
                  (.app
                    (.app
                      (.app (.axm .eq_ [.var 0]) (.var 6 (.sort (.var 0))))
                      (.var 5 (.sort (.var 0))))
                    (.var 2 (.sort (.var 0)))))))))))

/-- `Equality::get_type` (`axiom/equality.rs` lines 42-48). -/
def axType : Ax → Term
  | .eq_ => typeEq
  | .eqRec => typeEqRec
  | .refl => typeRefl

/-- One fuel level of the mutually recursive kernel cluster: weak-head
normalization, the equality schema's ι-reducer, conversion and inference. -/
structure KernelFns where
  whnfF : Term → Term
  eqReduceF : Term → Option Term
  convF : Term → Term → Bool
  inferF : Term → Except KError Term

/-- The fueled kernel cluster.  Each field at fuel `n + 1` calls the fields at
fuel `n`; on the runs the Rust kernel completes, a large enough fuel computes
its answer.

* `whnfF` — modelled from the spec §4.D: β in head position, δ for a bare
  instantiated declaration in head position, then the ι rules of the axiom
  schemas (here: equality); when no rule fires the term is returned unchanged.
* `eqReduceF` — transcribed from `Equality::reduce`
  (`axiom/equality.rs` lines 50-90), including the one spine segment
  (line 82, `let App(f, _) = *f`) that is matched without being whnf-ed, and
  the conversion check `b.is_def_eq(a)` between the recursor's fifth and
  second arguments (line 77).
* `convF` — transcribed from `Term::conversion`
  (`type_checker.rs` lines 52-94); the relevance test of its line 58 is
  modelled from the spec §4.F: a term is proof-irrelevant when the whnf of
  its inferred type is `Sort 0` (`is_relevant` lives in the unavailable
  `memory/term` module).
* `inferF` — transcribed from `Term::infer` (`type_checker.rs` lines
  125-174); the `Decl` rule is modelled from the spec §4.H: the body's type is
  inferred unsubstituted and the instantiation vector is applied to the
  result. -/
def kfns : Nat → KernelFns
  | 0 =>
    { whnfF := fun t => t
      eqReduceF := fun _ => none
      convF := fun _ _ => false
      inferF := fun _ => .error ⟨.outOfFuel, []⟩ }
  | n + 1 =>
    let K := kfns n
    { whnfF := fun t =>
        match t with
        | .app f a =>
          match K.whnfF f with
          | .abs _ body => K.whnfF (Term.substitute body a 1)
          | _ =>
            match K.eqReduceF t with
            | some r => K.whnfF r
            | none => t
        | .decl b ar ls => K.whnfF (Term.unfold (.decl b ar ls))
        | t => t
      eqReduceF := fun t =>
        match t with
        | .app f6 aBEq =>
          match K.whnfF f6 with
          | .app f5 b =>
            match K.whnfF f5 with
            | .app f4 motiveRefl =>
              match K.whnfF f4 with
              | .app f3 _ =>
                match K.whnfF f3 with
                | .app f2 a =>
                  match K.whnfF f2 with
                  | .app f1 _ =>
                    match K.whnfF f1.unfold with
                    | .axm .eqRec _ =>
                      if K.convF b a then
                        match K.whnfF aBEq with
                        | .app g _ =>
                          match g with
                          | .app g' _ =>
                            match K.whnfF g'.unfold with
                            | .axm .refl _ => some motiveRefl
                            | _ => none
                          | _ => none
                        | _ => none
                      else none
                    | _ => none
                  | _ => none
                | _ => none
              | _ => none
            | _ => none
          | _ => none
        | _ => none
      convF := fun t u =>
        if t = u then true
        else
          let rel : Bool :=
            match K.inferF t with
            | .ok ty =>
              match K.whnfF ty with
              | .sort .zero => false
              | _ => true
            | .error _ => true
          if !rel then true
          else
            let t' := K.whnfF t
            let u' := K.whnfF u
            if t' = u' then true
            else
              match t', u' with
              | .sort l1, .sort l2 => Level.isEq n l1 l2
              | .var i _, .var j _ => decide (i = j)
              | .prod a1 b1, .prod a2 b2 => K.convF a1 a2 && K.convF b1 b2
              | .abs _ b1, .abs _ b2 => K.convF b1 b2
              | .app g1 a1, .app g2 a2 => K.convF g1 g2 && K.convF a1 a2
              | .decl b ar ls, _ => K.convF (Term.unfold (.decl b ar ls)) u'
              | _, .decl b ar ls => K.convF (Term.unfold (.decl b ar ls)) t'
              | _, _ => false
      inferF := fun t =>
        match t with
        | .sort l => .ok (.sort (l.mkAdd 1))
        | .var _ ty => .ok ty
        | .axm a ls => .ok ((axType a).substUnivs ls)
        | .prod ty body =>
          match K.inferF ty with
          | .error e => .error (traceErr e .left)
          | .ok univT =>
            match K.inferF body with
            | .error e => .error (traceErr e .right)
            | .ok univU => imaxTC (K.whnfF univT) (K.whnfF univU)
        | .abs ty body =>
          match K.inferF ty with
          | .error e => .error (traceErr e .left)
          | .ok typeT =>
            match typeT with
            | .sort _ =>
              match K.inferF body with
              | .error e => .error (traceErr e .right)
              | .ok typeU => .ok (.prod ty typeU)
            | _ => .error ⟨.notUniverse typeT, [.left]⟩
        | .app f a =>
          match K.inferF f with
          | .error e => .error (traceErr e .left)
          | .ok typeF =>
            match K.whnfF typeF with
            | .prod argType cls =>
              match K.inferF a with
              | .error e => .error (traceErr e .right)
              | .ok typeA =>
                if K.convF typeA argType then .ok (Term.substitute cls a 1)
                else .error ⟨.wrongArgumentType f argType a typeA, []⟩
            | other => .error ⟨.notAFunction f other a, [.left]⟩
        | .decl b _ ls =>
          match K.inferF b with
          | .error e => .error e
          | .ok ty => .ok (ty.substUnivs ls) }

/-- Fueled weak-head normal form (`whnf`). -/
def whnf (n : Nat) (t : Term) : Term := (kfns n).whnfF t

/-- Fueled ι-reducer of the equality schema (`Equality::reduce`). -/
def eqReduce (n : Nat) (t : Term) : Option Term := (kfns n).eqReduceF t

/-- Fueled conversion (`Term::conversion`). -/
def conversion (n : Nat) (t u : Term) : Bool := (kfns n).convF t u

/-- Fueled type inference (`Term::infer`). -/
def infer (n : Nat) (t : Term) : Except KError Term := (kfns n).inferF t

/-- Modelled from the spec: the relevance test of `conversion`
(`memory/term`, unavailable): a term is relevant unless the whnf of its
inferred type is `Sort 0` (§4.F). -/
def isRelevant (n : Nat) (t : Term) : Bool :=
  match infer n t with
  | .ok ty =>
    match whnf n ty with
    | .sort .zero => false
    | _ => true
  | .error _ => true

/-- `Term::is_def_eq` (`type_checker.rs` lines 101-105). -/
def isDefEq (n : Nat) (t u : Term) : Except KError Unit :=
  if conversion n t u then .ok () else .error ⟨.notDefEq t u, []⟩

/-- A declaration (`memory/declaration.rs`, visible as the tuple struct
`Declaration(Term, usize)` through its uses in `type_checker.rs` and
`arena.rs`): a body and the number of universe parameters it abstracts. -/
structure Declaration where
  term : Term
  arity : Nat
deriving DecidableEq, Repr

/-- The arena's two name tables (`memory/arena.rs`, fields `named_decls` and
`named_terms`); the interning sets and memoization caches have no observable
effect on the claims and are omitted. -/
structure ArenaNames where
  namedDecls : String → Option Declaration
  namedTerms : String → Option Term

/-- `Arena::bind` (`arena.rs` lines 123-127): binds a term to a name,
replacing any prior binding. -/
def bind (a : ArenaNames) (name : String) (t : Term) : ArenaNames :=
  { a with namedTerms := fun m => if m = name then some t else a.namedTerms m }

/-- `Arena::bind_decl` (`arena.rs` lines 129-137): binds a declaration to a
name, replacing any prior binding; a 0-arity declaration additionally has its
body bound as a term under the same name. -/
def bindDecl (a : ArenaNames) (name : String) (d : Declaration) : ArenaNames :=
  let a' : ArenaNames :=
    { a with namedDecls := fun m => if m = name then some d else a.namedDecls m }
  match d with
  | ⟨t, 0⟩ => bind a' name t
  | _ => a'

/-- `Arena::get_binding` (`arena.rs` lines 139-144). -/
def getBinding (a : ArenaNames) (name : String) : Option Term :=
  a.namedTerms name

/-- `Arena::get_binding_decl` (`arena.rs` lines 146-151). -/
def getBindingDecl (a : ArenaNames) (name : String) : Option Declaration :=
  a.namedDecls name

/-- Whether the scrutinee of an `Eq_rec` application is accepted by the
`Refl`-spine match of `Equality::reduce` (`axiom/equality.rs` lines 79-88):
its whnf must be an application whose function part is *syntactically* an
application whose own function part unfold-whnfs to the `Refl` constant.
Note the middle segment (`let App(f, _) = *f`, line 82) is matched without
being whnf-ed. -/
def reflHeaded (n : Nat) (p : Term) : Bool :=
  match whnf n p with
  | .app g _ =>
    match g with
    | .app g' _ =>
      match whnf n g'.unfold with
      | .axm .refl _ => true
      | _ => false
    | _ => false
  | _ => false

/-- A fresh arena's name tables: both empty (`Arena::new`). -/
def arena0 : ArenaNames := ⟨fun _ => none, fun _ => none⟩

end Proost

namespace Proost

theorem Level.size_pos (l : Level) : 0 < l.size := by
  cases l <;> simp [Level.size]

theorem Level.mkAdd_zero (u : Level) : u.mkAdd 0 = u := by
  cases u <;> rfl

theorem Level.mkAdd_eq_add {u : Level} (k : Nat) (hu : u.isAdd = false) :
    u.mkAdd (k + 1) = .add u (k + 1) := by
  cases u <;> simp_all [Level.mkAdd, Level.isAdd]

theorem Level.size_mkAdd (u : Level) (k : Nat) : (u.mkAdd k).size ≤ u.size + 1 := by
  induction u generalizing k with
  | add u' n ih =>
    cases k with
    | zero => simp [Level.mkAdd_zero]
    | succ k =>
      calc (Level.mkAdd (.add u' n) (k + 1)).size = (Level.mkAdd u' (n + (k + 1))).size := rfl
        _ ≤ u'.size + 1 := ih _
        _ ≤ (Level.add u' n).size + 1 := by simp [Level.size]
  | zero => cases k <;> simp [Level.mkAdd, Level.size]
  | var i => cases k <;> simp [Level.mkAdd, Level.size]
  | max u v ihu ihv => cases k <;> simp [Level.mkAdd, Level.size]
  | imax u v ihu ihv => cases k <;> simp [Level.mkAdd, Level.size]

theorem Level.reduced_mkAdd {u : Level} (k : Nat) (hu : u.reduced = true) :
    (u.mkAdd k).reduced = true := by
  cases k with
  | zero => simpa [Level.mkAdd_zero] using hu
  | succ k =>
    cases u with
    | add u' n =>
      have h' : u'.isAdd = false := by
        simp [Level.reduced] at hu; tauto
      have h'' : u'.reduced = true := by
        simp [Level.reduced] at hu; tauto
      show (Level.mkAdd u' (n + (k + 1))).reduced = true
      have : n + (k + 1) = (n + k) + 1 := by omega
      rw [this, Level.mkAdd_eq_add _ h']
      simp [Level.reduced, h', h'']
    | zero => rw [Level.mkAdd_eq_add k (by rfl)]; simp [Level.reduced, Level.isAdd]
    | var i => rw [Level.mkAdd_eq_add k (by rfl)]; simp_all [Level.reduced, Level.isAdd]
    | max a b => rw [Level.mkAdd_eq_add k (by rfl)]; simp_all [Level.reduced, Level.isAdd]
    | imax a b => rw [Level.mkAdd_eq_add k (by rfl)]; simp_all [Level.reduced, Level.isAdd]

theorem Level.size_mkAdd_min (uu vv : Level) (k1 k2 : Nat) :
    (Level.mkAdd uu (k1 - Nat.min k1 k2)).size + (Level.mkAdd vv (k2 - Nat.min k1 k2)).size
      ≤ uu.size + vv.size + 1 := by
  rcases Nat.le_total k1 k2 with hle | hle
  · have e0 : Nat.min k1 k2 = k1 := by simp [Nat.min_def, hle]
    rw [e0, Nat.sub_self, Level.mkAdd_zero]
    have := Level.size_mkAdd vv (k2 - k1)
    omega
  · have e0 : Nat.min k1 k2 = k2 := by
      simp only [Nat.min_def]
      split <;> omega
    rw [e0, Nat.sub_self, Level.mkAdd_zero]
    have := Level.size_mkAdd uu (k1 - k2)
    omega

theorem Level.reduced_max_node {u v : Level} (hu : u.reduced = true) (hv : v.reduced = true)
    (hne : u ≠ v) (hzu : u.isZero = false) (hzv : v.isZero = false)
    (hadd : u.isAdd = false ∨ v.isAdd = false) : (Level.max u v).reduced = true := by
  have hb : (u.isAdd && v.isAdd) = false := by
    rcases hadd with h | h <;> simp [h]
  simp [Level.reduced, hu, hv, hne, hzu, hzv, hb]

theorem Level.reduced_mkMaxF :
    ∀ (fuel : Nat) (u v : Level), u.size + v.size ≤ fuel →
      u.reduced = true → v.reduced = true → (Level.mkMaxF fuel u v).reduced = true := by
  intro fuel
  induction fuel with
  | zero =>
    intro u v hsz _ _
    have := u.size_pos
    have := v.size_pos
    omega
  | succ fuel ih =>
    intro u v hsz hu hv
    by_cases hne : u = v
    · subst hne
      simpa [Level.mkMaxF] using hu
    · cases u <;> cases v <;>
        first
        | (simp only [Level.mkMaxF, if_neg hne]
           exact hv)
        | (simp only [Level.mkMaxF, if_neg hne]
           exact hu)
        | (simp only [Level.mkMaxF, if_neg hne]
           exact Level.reduced_max_node hu hv hne rfl rfl (Or.inl rfl))
        | (simp only [Level.mkMaxF, if_neg hne]
           exact Level.reduced_max_node hu hv hne rfl rfl (Or.inr rfl))
        | (rename_i uu k1 vv k2
           have huu : uu.reduced = true := by simp [Level.reduced] at hu; tauto
           have hvv : vv.reduced = true := by simp [Level.reduced] at hv; tauto
           have hsz' : (Level.mkAdd uu (k1 - Nat.min k1 k2)).size
               + (Level.mkAdd vv (k2 - Nat.min k1 k2)).size ≤ fuel := by
             have hmin := Level.size_mkAdd_min uu vv k1 k2
             simp only [Level.size] at hsz
             omega
           simp only [Level.mkMaxF, if_neg hne]
           exact Level.reduced_mkAdd _
             (ih _ _ hsz' (Level.reduced_mkAdd _ huu) (Level.reduced_mkAdd _ hvv)))

theorem Level.reduced_mkMax {u v : Level} (hu : u.reduced = true) (hv : v.reduced = true) :
    (u.mkMax v).reduced = true :=
  Level.reduced_mkMaxF _ u v le_rfl hu hv

theorem Level.reduced_add_iff {u : Level} {k : Nat} :
    (Level.add u k).reduced = true ↔ k ≠ 0 ∧ u.isAdd = false ∧ u.reduced = true := by
  simp [Level.reduced, and_assoc, Bool.not_eq_true']

theorem Level.reduced_max_iff {u v : Level} :
    (Level.max u v).reduced = true ↔
      u.reduced = true ∧ v.reduced = true ∧ u ≠ v ∧ u.isZero = false ∧ v.isZero = false
        ∧ (u.isAdd && v.isAdd) = false := by
  simp [Level.reduced, and_assoc, Bool.not_eq_true']
  intro _ _ _ _ _
  constructor
  · rintro (h | h) hh
    · exact absurd hh (by simp [h])
    · exact h
  · intro h
    cases hu : u.isAdd
    · exact Or.inl rfl
    · exact Or.inr (h hu)

theorem Level.reduced_imax_iff {u v : Level} :
    (Level.imax u v).reduced = true ↔
      u.reduced = true ∧ v.reduced = true ∧ u ≠ v ∧ v.isVar = true := by
  simp [Level.reduced, and_assoc, Bool.not_eq_true']

theorem Level.reduced_mkIMaxF :
    ∀ (fuel : Nat) (u v : Level), v.size ≤ fuel →
      u.reduced = true → v.reduced = true → (Level.mkIMaxF fuel u v).reduced = true := by
  intro fuel
  induction fuel with
  | zero =>
    intro u v hsz _ _
    have := v.size_pos
    omega
  | succ fuel ih =>
    intro u v hsz hu hv
    by_cases hne : u = v
    · subst hne
      simpa [Level.mkIMaxF] using hu
    · cases v with
      | zero =>
        simp only [Level.mkIMaxF, if_neg hne]
        rfl
      | add vv k =>
        simp only [Level.mkIMaxF, if_neg hne]
        exact Level.reduced_mkMax hu hv
      | var j =>
        simp only [Level.mkIMaxF, if_neg hne]
        rw [Level.reduced_imax_iff]
        exact ⟨hu, rfl, hne, rfl⟩
      | imax vv vw =>
        obtain ⟨hvv, hvw, -, -⟩ := Level.reduced_imax_iff.mp hv
        have hszw : vw.size ≤ fuel := by simp only [Level.size] at hsz; omega
        simp only [Level.mkIMaxF, if_neg hne]
        exact Level.reduced_mkMax (ih _ _ hszw hu hvw) hv
      | max vv vw =>
        obtain ⟨hvv, hvw, -, -, -, -⟩ := Level.reduced_max_iff.mp hv
        have hszv : vv.size ≤ fuel := by simp only [Level.size] at hsz; omega
        have hszw : vw.size ≤ fuel := by simp only [Level.size] at hsz; omega
        simp only [Level.mkIMaxF, if_neg hne]
        exact Level.reduced_mkMax (ih _ _ hszv hu hvv) (ih _ _ hszw hu hvw)

theorem Level.reduced_mkIMax {u v : Level} (hu : u.reduced = true) (hv : v.reduced = true) :
    (u.mkIMax v).reduced = true :=
  Level.reduced_mkIMaxF _ u v le_rfl hu hv

theorem Level.reduced_renorm (l : Level) : l.renorm.reduced = true := by
  induction l with
  | zero => rfl
  | var i => rfl
  | add u k ih => exact Level.reduced_mkAdd k ih
  | max u v ihu ihv => exact Level.reduced_mkMax ihu ihv
  | imax u v ihu ihv => exact Level.reduced_mkIMax ihu ihv

theorem Level.mkAdd_of_reduced {u : Level} {k : Nat} (h : (Level.add u k).reduced = true) :
    Level.mkAdd u k = .add u k := by
  obtain ⟨hk, ha, -⟩ := Level.reduced_add_iff.mp h
  cases k with
  | zero => exact absurd rfl hk
  | succ k => exact Level.mkAdd_eq_add k ha

theorem Level.mkMax_of_reduced {u v : Level} (h : (Level.max u v).reduced = true) :
    Level.mkMax u v = .max u v := by
  obtain ⟨hu, hv, hne, hzu, hzv, hadd⟩ := Level.reduced_max_iff.mp h
  have hpos : 0 < u.size := u.size_pos
  obtain ⟨s, hs⟩ : ∃ s, u.size + v.size = s + 1 := ⟨u.size + v.size - 1, by omega⟩
  rw [Level.mkMax, hs]
  simp only [Level.mkMaxF, if_neg hne]
  cases u <;> cases v <;> simp_all [Level.isZero, Level.isAdd]

theorem Level.mkIMax_of_reduced {u v : Level} (h : (Level.imax u v).reduced = true) :
    Level.mkIMax u v = .imax u v := by
  obtain ⟨hu, hv, hne, hvar⟩ := Level.reduced_imax_iff.mp h
  cases v <;> simp_all [Level.isVar]
  rw [Level.mkIMax]
  simp [Level.size, Level.mkIMaxF, hne]

theorem Level.renorm_of_reduced : ∀ {l : Level}, l.reduced = true → l.renorm = l := by
  intro l
  induction l with
  | zero => intro _; rfl
  | var i => intro _; rfl
  | add u k ih =>
    intro h
    obtain ⟨-, -, hu⟩ := Level.reduced_add_iff.mp h
    show Level.mkAdd u.renorm k = _
    rw [ih hu, Level.mkAdd_of_reduced h]
  | max u v ihu ihv =>
    intro h
    obtain ⟨hu, hv, -, -, -, -⟩ := Level.reduced_max_iff.mp h
    show Level.mkMax u.renorm v.renorm = _
    rw [ihu hu, ihv hv, Level.mkMax_of_reduced h]
  | imax u v ihu ihv =>
    intro h
    obtain ⟨hu, hv, -, -⟩ := Level.reduced_imax_iff.mp h
    show Level.mkIMax u.renorm v.renorm = _
    rw [ihu hu, ihv hv, Level.mkIMax_of_reduced h]

theorem Level.renorm_idem (l : Level) : l.renorm.renorm = l.renorm :=
  Level.renorm_of_reduced (Level.reduced_renorm l)

theorem infer_app_unfold (n : Nat) (f a : Term) :
    infer (n + 1) (.app f a) =
      (match infer n f with
       | .error e => .error (traceErr e .left)
       | .ok typeF =>
         match whnf n typeF with
         | .prod argType cls =>
           match infer n a with
           | .error e => .error (traceErr e .right)
           | .ok typeA =>
             if conversion n typeA argType then .ok (Term.substitute cls a 1)
             else .error ⟨.wrongArgumentType f argType a typeA, []⟩
         | other => .error ⟨.notAFunction f other a, [.left]⟩) := rfl

theorem infer_prod_unfold (n : Nat) (t u : Term) :
    infer (n + 1) (.prod t u) =
      (match infer n t with
       | .error e => .error (traceErr e .left)
       | .ok univT =>
         match infer n u with
         | .error e => .error (traceErr e .right)
         | .ok univU => imaxTC (whnf n univT) (whnf n univU)) := rfl

theorem conversion_unfold (n : Nat) (t u : Term) :
    conversion (n + 1) t u =
      (if t = u then true
       else
         let rel : Bool :=
           match infer n t with
           | .ok ty =>
             match whnf n ty with
             | .sort .zero => false
             | _ => true
           | .error _ => true
         if !rel then true
         else
           let t' := whnf n t
           let u' := whnf n u
           if t' = u' then true
           else
             match t', u' with
             | .sort l1, .sort l2 => Level.isEq n l1 l2
             | .var i _, .var j _ => decide (i = j)
             | .prod a1 b1, .prod a2 b2 => conversion n a1 a2 && conversion n b1 b2
             | .abs _ b1, .abs _ b2 => conversion n b1 b2
             | .app g1 a1, .app g2 a2 => conversion n g1 g2 && conversion n a1 a2
             | .decl b ar ls, _ => conversion n (Term.unfold (.decl b ar ls)) u'
             | _, .decl b ar ls => conversion n (Term.unfold (.decl b ar ls)) t'
             | _, _ => false) := rfl

theorem whnf_app_unfold (n : Nat) (f a : Term) :
    whnf (n + 1) (.app f a) =
      (match whnf n f with
       | .abs _ body => whnf n (Term.substitute body a 1)
       | _ =>
         match eqReduce n (.app f a) with
         | some r => whnf n r
         | none => .app f a) := rfl

theorem eqReduce_unfold (n : Nat) (f6 p : Term) :
    eqReduce (n + 1) (.app f6 p) =
      (match whnf n f6 with
       | .app f5 b =>
         match whnf n f5 with
         | .app f4 motiveRefl =>
           match whnf n f4 with
           | .app f3 _ =>
             match whnf n f3 with
             | .app f2 a =>
               match whnf n f2 with
               | .app f1 _ =>
                 match whnf n f1.unfold with
                 | .axm .eqRec _ =>
                   if conversion n b a then
                     match whnf n p with
                     | .app g _ =>
                       match g with
                       | .app g' _ =>
                         match whnf n g'.unfold with
                         | .axm .refl _ => some motiveRefl
                         | _ => none
                       | _ => none
                     | _ => none
                   else none
                 | _ => none
               | _ => none
             | _ => none
           | _ => none
         | _ => none
       | _ => none) := rfl

end Proost

namespace Proost

/-- C1: for an application `App(f, a)` whose function part types as `tf`,
inference succeeds exactly when the whnf of `tf` is a product `Prod(A, B)` and
the inferred type of `a` is convertible to `A`, in which case it returns
`substitute(B, a, 1)`; a non-product whnf fails with the not-a-function error
(traced `Left`, carrying the whnf-ed type), and a failed conversion fails with
the wrong-argument-type error carrying the expected type `A` and the actual
inferred type of `a` (`type_checker.rs` lines 153-170). -/
theorem c1_infer_app (n : Nat) (f a tf : Term) (h : infer n f = .ok tf) :
    ((∃ r, infer (n + 1) (.app f a) = .ok r) ↔
      ∃ A B, whnf n tf = .prod A B ∧ ∃ ta, infer n a = .ok ta ∧ conversion n ta A = true)
    ∧ (∀ A B ta, whnf n tf = .prod A B → infer n a = .ok ta →
        (conversion n ta A = true →
          infer (n + 1) (.app f a) = .ok (Term.substitute B a 1))
        ∧ (conversion n ta A = false →
          infer (n + 1) (.app f a) = .error ⟨.wrongArgumentType f A a ta, []⟩))
    ∧ ((∀ A B, whnf n tf ≠ .prod A B) →
        infer (n + 1) (.app f a) = .error ⟨.notAFunction f (whnf n tf) a, [.left]⟩) := by
  refine ⟨?_, ?_, ?_⟩
  · constructor
    · rintro ⟨r, hr⟩
      simp only [infer_app_unfold, h] at hr
      rcases hw : whnf n tf with ⟨i, ty⟩ | l | ⟨g, x⟩ | ⟨ty, b⟩ | ⟨A, B⟩ | ⟨ax, ls⟩ | ⟨b, ar, ls⟩ <;>
          simp only [hw] at hr <;> try exact absurd hr (by simp)
      rcases ha : infer n a with e | ta <;> simp only [ha] at hr
      · exact absurd hr (by simp)
      · rcases hc : conversion n ta A
        · simp [hc] at hr
        · exact ⟨A, B, rfl, ta, rfl, hc⟩
    · rintro ⟨A, B, hw, ta, ha, hc⟩
      exact ⟨Term.substitute B a 1, by simp [infer_app_unfold, h, hw, ha, hc]⟩
  · intro A B ta hw ha
    constructor
    · intro hc
      simp [infer_app_unfold, h, hw, ha, hc]
    · intro hc
      simp [infer_app_unfold, h, hw, ha, hc]
  · intro hnp
    rcases hw : whnf n tf with ⟨i, ty⟩ | l | ⟨g, x⟩ | ⟨ty, b⟩ | ⟨A, B⟩ | ⟨ax, ls⟩ | ⟨b, ar, ls⟩
    · simp [infer_app_unfold, h, hw]
    · simp [infer_app_unfold, h, hw]
    · simp [infer_app_unfold, h, hw]
    · simp [infer_app_unfold, h, hw]
    · exact absurd hw (hnp _ _)
    · simp [infer_app_unfold, h, hw]
    · simp [infer_app_unfold, h, hw]

/-- Witness for `c1_infer_app`: `(λx : Type 0. x) Prop` infers `Type 0`. -/
theorem c1_infer_app_witness :
    infer 4 (.app (.abs (.sort (.add .zero 1)) (.var 1 (.sort (.add .zero 1)))) (.sort .zero))
      = .ok (.sort (.add .zero 1)) :=
  ((c1_infer_app 3 (.abs (.sort (.add .zero 1)) (.var 1 (.sort (.add .zero 1)))) (.sort .zero)
      (.prod (.sort (.add .zero 1)) (.sort (.add .zero 1))) rfl).2.1
    (.sort (.add .zero 1)) (.sort (.add .zero 1)) (.sort (.add .zero 1)) rfl rfl).1 rfl

/-- C2: for a product `Prod(A, B)`: if both inferred types whnf to sorts, the
result is `Sort(imax l1 l2)`; a non-sort on the left is the not-a-universe
error traced `Left`, a non-sort on the right (the left being a sort) is the
not-a-universe error traced `Right` (`type_checker.rs` lines 107-118 and
131-138).  Prop is impredicative: `∀x:Prop. x : Prop`,
`∀x:Prop. Prop : Type 0`, and `∀x:Prop. Type 0 : Type 1`. -/
theorem c2_infer_prod :
    (∀ (n : Nat) (t u st su : Term) (l1 l2 : Level),
        infer n t = .ok st → infer n u = .ok su →
        whnf n st = .sort l1 → whnf n su = .sort l2 →
        infer (n + 1) (.prod t u) = .ok (.sort (l1.mkIMax l2)))
    ∧ (∀ (n : Nat) (t u st su : Term),
        infer n t = .ok st → infer n u = .ok su → (∀ l, whnf n st ≠ .sort l) →
        infer (n + 1) (.prod t u) = .error ⟨.notUniverse (whnf n st), [.left]⟩)
    ∧ (∀ (n : Nat) (t u st su : Term) (l1 : Level),
        infer n t = .ok st → infer n u = .ok su →
        whnf n st = .sort l1 → (∀ l, whnf n su ≠ .sort l) →
        infer (n + 1) (.prod t u) = .error ⟨.notUniverse (whnf n su), [.right]⟩)
    ∧ infer 9 (.prod (.sort .zero) (.var 1 (.sort .zero))) = .ok (.sort .zero)
    ∧ infer 9 (.prod (.sort .zero) (.sort .zero)) = .ok (.sort (.add .zero 1))
    ∧ infer 9 (.prod (.sort .zero) (.sort (.add .zero 1))) = .ok (.sort (.add .zero 2)) := by
  refine ⟨?_, ?_, ?_, rfl, rfl, rfl⟩
  · intro n t u st su l1 l2 h1 h2 hw1 hw2
    simp [infer_prod_unfold, h1, h2, hw1, hw2, imaxTC]
  · intro n t u st su h1 h2 hns
    rcases hw : whnf n st with ⟨i, ty⟩ | l | ⟨g, x⟩ | ⟨ty, b⟩ | ⟨A, B⟩ | ⟨ax, ls⟩ | ⟨b, ar, ls⟩
    · simp [infer_prod_unfold, h1, h2, hw, imaxTC]
    · exact absurd hw (hns _)
    · simp [infer_prod_unfold, h1, h2, hw, imaxTC]
    · simp [infer_prod_unfold, h1, h2, hw, imaxTC]
    · simp [infer_prod_unfold, h1, h2, hw, imaxTC]
    · simp [infer_prod_unfold, h1, h2, hw, imaxTC]
    · simp [infer_prod_unfold, h1, h2, hw, imaxTC]
  · intro n t u st su l1 h1 h2 hw1 hns
    rcases hw : whnf n su with ⟨i, ty⟩ | l | ⟨g, x⟩ | ⟨ty, b⟩ | ⟨A, B⟩ | ⟨ax, ls⟩ | ⟨b, ar, ls⟩
    · simp [infer_prod_unfold, h1, h2, hw1, hw, imaxTC]
    · exact absurd hw (hns _)
    · simp [infer_prod_unfold, h1, h2, hw1, hw, imaxTC]
    · simp [infer_prod_unfold, h1, h2, hw1, hw, imaxTC]
    · simp [infer_prod_unfold, h1, h2, hw1, hw, imaxTC]
    · simp [infer_prod_unfold, h1, h2, hw1, hw, imaxTC]
    · simp [infer_prod_unfold, h1, h2, hw1, hw, imaxTC]

/-- Witness for `c2_infer_prod`: `Prop → Prop` infers `Type 0`. -/
theorem c2_infer_prod_witness :
    infer 3 (.prod (.sort .zero) (.sort .zero)) = .ok (.sort (.add .zero 1)) :=
  c2_infer_prod.1 2 (.sort .zero) (.sort .zero) (.sort (.add .zero 1)) (.sort (.add .zero 1))
    (.add .zero 1) (.add .zero 1) rfl rfl rfl rfl

/-- C3: proof irrelevance — if the inferred type of `t` weak-head-normalizes to
`Sort 0`, then `conversion(t, u)` succeeds for every `u`, with no structural
comparison of `t` and `u` (`type_checker.rs` lines 57-60 together with the
spec-modelled relevance test). -/
theorem c3_proof_irrelevance (n : Nat) (t u ty : Term) (h1 : infer n t = .ok ty)
    (h2 : whnf n ty = .sort .zero) : conversion (n + 1) t u = true := by
  by_cases htu : t = u
  · simp [conversion_unfold, htu]
  · simp [conversion_unfold, htu, h1, h2]

/-- Witness for `c3_proof_irrelevance`: a variable of type `Prop` converts
with the unrelated term `Type 1`. -/
theorem c3_proof_irrelevance_witness :
    conversion 2 (.var 1 (.sort .zero)) (.sort (.add .zero 2)) = true :=
  c3_proof_irrelevance 1 (.var 1 (.sort .zero)) (.sort (.add .zero 2)) (.sort .zero) rfl rfl

end Proost

namespace Proost

/-- C4 counterexample: in `Eq_rec A a m r b p` with `A = Type 0`, `a = Prop`,
`b = Type 0` and `p = Refl (Type 0) Prop`, the whnf of `p` is headed by `Refl`
and the conversion check `a ≡ a'` succeeds (`a' = Prop` is the value argument
of the `Refl`), yet the reducer does not fire and the term is stuck: the code
compares the recursor's fifth argument `b` with `a` (`equality.rs` line 77),
not `a` with `a'`, and here `b = Type 0 ≢ Prop`. -/
theorem c4_counterexample :
    whnf 20 (.app (.app (.axm .refl [.zero]) (.sort (.add .zero 1))) (.sort .zero))
      = .app (.app (.axm .refl [.zero]) (.sort (.add .zero 1))) (.sort .zero)
    ∧ conversion 20 (.sort .zero) (.sort .zero) = true
    ∧ eqReduce 20 (.app (.app (.app (.app (.app (.app (.axm .eqRec [.zero, .zero])
        (.sort (.add .zero 1))) (.sort .zero)) (.sort .zero)) (.var 3 (.sort .zero)))
        (.sort (.add .zero 1)))
        (.app (.app (.axm .refl [.zero]) (.sort (.add .zero 1))) (.sort .zero))) = none
    ∧ whnf 21 (.app (.app (.app (.app (.app (.app (.axm .eqRec [.zero, .zero])
        (.sort (.add .zero 1))) (.sort .zero)) (.sort .zero)) (.var 3 (.sort .zero)))
        (.sort (.add .zero 1)))
        (.app (.app (.axm .refl [.zero]) (.sort (.add .zero 1))) (.sort .zero)))
      = .app (.app (.app (.app (.app (.app (.axm .eqRec [.zero, .zero])
        (.sort (.add .zero 1))) (.sort .zero)) (.sort .zero)) (.var 3 (.sort .zero)))
        (.sort (.add .zero 1)))
        (.app (.app (.axm .refl [.zero]) (.sort (.add .zero 1))) (.sort .zero)) :=
  ⟨rfl, rfl, rfl, rfl⟩

/-- C4 (amended): the ι-reducer of the equality schema rewrites a fully applied
`Eq_rec A a m r b p` to `r`, and the reduction is enabled precisely when the
conversion check `b ≡ a` (the recursor's fifth argument against its second —
the value argument of the `Refl` is never compared) succeeds and the whnf of
`p` is an application whose function part is syntactically an application
headed, after unfold and whnf, by `Refl`; otherwise the reducer returns
nothing, and a term whose reducer returns nothing is returned unchanged by
whnf (`axiom/equality.rs` lines 50-90). -/
theorem c4_eq_rec_reduce_amended (n : Nat) (f6 p f5 b f4 r f3 m f2 a f1 A : Term)
    (ls : List Level)
    (h2 : whnf n f6 = .app f5 b) (h3 : whnf n f5 = .app f4 r)
    (h4 : whnf n f4 = .app f3 m) (h5 : whnf n f3 = .app f2 a)
    (h6 : whnf n f2 = .app f1 A) (h7 : whnf n f1.unfold = .axm .eqRec ls) :
    (eqReduce (n + 1) (.app f6 p) =
      if conversion n b a && reflHeaded n p then some r else none)
    ∧ (eqReduce n (.app f6 p) = none → whnf (n + 1) (.app f6 p) = .app f6 p) := by
  constructor
  · simp only [eqReduce_unfold, h2, h3, h4, h5, h6, h7]
    rcases hc : conversion n b a
    · simp
    · simp only [Bool.true_and]
      rcases hp : whnf n p with ⟨i, ty⟩ | l | ⟨g, x⟩ | ⟨ty, b'⟩ | ⟨A', B'⟩ | ⟨ax, ls'⟩ | ⟨b', ar, ls'⟩ <;>
        simp only [reflHeaded, hp] <;> try simp
      cases g with
      | app g' y =>
        rcases hg : whnf n g'.unfold with ⟨i, ty⟩ | l | ⟨g2, x2⟩ | ⟨ty, b2⟩ | ⟨A2, B2⟩ | ⟨ax2, ls2⟩ | ⟨b2, ar2, ls2⟩ <;>
          simp only [hg] <;> try simp
        cases ax2 <;> simp
      | var i ty => simp
      | sort l => simp
      | abs ty b2 => simp
      | prod ty b2 => simp
      | axm ax2 ls2 => simp
      | decl b2 ar2 ls2 => simp
  · intro hred
    rw [whnf_app_unfold, h2]
    simp [hred]

/-- Witness for `c4_eq_rec_reduce_amended`: with `b = a = Prop` the same
`Eq_rec` application does reduce to its fourth argument `r`. -/
theorem c4_eq_rec_reduce_witness :
    eqReduce 20
      (.app (.app (.app (.app (.app (.app (.axm .eqRec [.zero, .zero]) (.sort (.add .zero 1)))
        (.sort .zero)) (.sort .zero)) (.var 3 (.sort .zero))) (.sort .zero))
        (.app (.app (.axm .refl [.zero]) (.sort (.add .zero 1))) (.sort .zero)))
      = some (.var 3 (.sort .zero)) :=
  (c4_eq_rec_reduce_amended 19
    (.app (.app (.app (.app (.app (.axm .eqRec [.zero, .zero]) (.sort (.add .zero 1)))
      (.sort .zero)) (.sort .zero)) (.var 3 (.sort .zero))) (.sort .zero))
    (.app (.app (.axm .refl [.zero]) (.sort (.add .zero 1))) (.sort .zero))
    (.app (.app (.app (.app (.axm .eqRec [.zero, .zero]) (.sort (.add .zero 1)))
      (.sort .zero)) (.sort .zero)) (.var 3 (.sort .zero)))
    (.sort .zero)
    (.app (.app (.app (.axm .eqRec [.zero, .zero]) (.sort (.add .zero 1)))
      (.sort .zero)) (.sort .zero))
    (.var 3 (.sort .zero))
    (.app (.app (.axm .eqRec [.zero, .zero]) (.sort (.add .zero 1))) (.sort .zero))
    (.sort .zero)
    (.app (.axm .eqRec [.zero, .zero]) (.sort (.add .zero 1)))
    (.sort .zero)
    (.axm .eqRec [.zero, .zero])
    (.sort (.add .zero 1))
    [.zero, .zero]
    rfl rfl rfl rfl rfl rfl).1.trans (by rfl)

end Proost

namespace Proost

/-- C5 counterexample: `imax(1, u0)` and `max(u0, imax(1, u0))` are both
reduced (fixed points of re-normalization, hence both storable with distinct
handles), and the level-equivalence procedure decides them equal — under
`u0 := 0` both reduce to `0`, and under `u0 := u1 + 1` both reduce to
`u1 + 1` — yet they are distinct levels.  Equivalent non-reducible levels
therefore need not share a handle. -/
theorem c5_counterexample :
    Level.reduced (.imax (.add .zero 1) (.var 0)) = true
    ∧ Level.reduced (.max (.var 0) (.imax (.add .zero 1) (.var 0))) = true
    ∧ Level.renorm (.imax (.add .zero 1) (.var 0)) = .imax (.add .zero 1) (.var 0)
    ∧ Level.renorm (.max (.var 0) (.imax (.add .zero 1) (.var 0)))
        = .max (.var 0) (.imax (.add .zero 1) (.var 0))
    ∧ Level.isEq 5 (.imax (.add .zero 1) (.var 0))
        (.max (.var 0) (.imax (.add .zero 1) (.var 0))) = true
    ∧ (.imax (.add .zero 1) (.var 0) : Level)
        ≠ .max (.var 0) (.imax (.add .zero 1) (.var 0)) :=
  ⟨rfl, rfl, rfl, rfl, rfl, by decide⟩

/-- C5 (amended): every stored level is a fixed point of normalization —
bottom-up re-interning produces a reduced level, reduced levels re-intern to
themselves, and re-normalization is idempotent — and levels with equal handles
are decided equal by the level-equivalence procedure; however, the converse
fails: two equivalent non-reducible levels need not share a handle (see
`c5_counterexample`). -/
theorem c5_level_canonicity_amended :
    (∀ l : Level, l.renorm.reduced = true)
    ∧ (∀ l : Level, l.reduced = true → l.renorm = l)
    ∧ (∀ l : Level, l.renorm.renorm = l.renorm)
    ∧ (∀ (n : Nat) (l1 l2 : Level), l1 = l2 → Level.isEq (n + 1) l1 l2 = true) := by
  refine ⟨Level.reduced_renorm, fun l h => Level.renorm_of_reduced h, Level.renorm_idem, ?_⟩
  rintro n l1 l2 rfl
  simp [Level.isEq]

/-- Witness for `c5_level_canonicity_amended`: `max(u0, u1)` is its own
re-normalization, and a level is equivalent to itself. -/
theorem c5_level_canonicity_witness :
    Level.renorm (.max (.var 0) (.var 1)) = .max (.var 0) (.var 1)
    ∧ Level.isEq 3 (.imax (.add .zero 1) (.var 0)) (.imax (.add .zero 1) (.var 0)) = true :=
  ⟨c5_level_canonicity_amended.2.1 (.max (.var 0) (.var 1)) rfl,
    c5_level_canonicity_amended.2.2.2 2 (.imax (.add .zero 1) (.var 0))
      (.imax (.add .zero 1) (.var 0)) rfl⟩

/-- C6 counterexample: conversion is not symmetric.  A variable of cached type
`Prop` is proof-irrelevant, so `conversion(Var(1, Prop), Type 1)` succeeds; in
the other order the left side is relevant and the structural comparison of a
sort against a variable fails.  The proof-irrelevance shortcut of
`Term::conversion` (`type_checker.rs` line 58) inspects only its left
argument. -/
theorem c6_counterexample :
    conversion 5 (.var 1 (.sort .zero)) (.sort (.add .zero 2)) = true
    ∧ conversion 5 (.sort (.add .zero 2)) (.var 1 (.sort .zero)) = false :=
  ⟨rfl, rfl⟩

/-- C6 (amended): conversion is reflexive — `conversion(t, t)` succeeds for
every term `t` (the handle-equality check of `type_checker.rs` line 53) — but
it is not symmetric in general, because the proof-irrelevance rule tests only
the left argument (see `c6_counterexample`). -/
theorem c6_conversion_refl_amended (n : Nat) (t : Term) : conversion (n + 1) t t = true := by
  simp [conversion_unfold]

end Proost

namespace Proost

/-- C7 counterexample: not every peeled spine segment is whnf-ed before being
matched.  Take `p = App(d, Prop)` where `d` is a 0-arity declaration whose
body is `App(Refl, Type 0)`: `p` is its own whnf, and whnf-ing the segment `d`
yields the application `App(Refl, Type 0)`, so a reducer that whnf-ed every
segment would accept the `Refl` spine and rewrite the surrounding `Eq_rec`
application to `r` — as the last conjunct shows for the same term with that
segment replaced by its whnf.  The code instead matches the segment
syntactically (`equality.rs` line 82), so the term is stuck. -/
theorem c7_counterexample :
    whnf 20 (.app (.decl (.app (.axm .refl [.zero]) (.sort (.add .zero 1))) 0 []) (.sort .zero))
      = .app (.decl (.app (.axm .refl [.zero]) (.sort (.add .zero 1))) 0 []) (.sort .zero)
    ∧ whnf 20 (.decl (.app (.axm .refl [.zero]) (.sort (.add .zero 1))) 0 [])
      = .app (.axm .refl [.zero]) (.sort (.add .zero 1))
    ∧ eqReduce 20 (.app (.app (.app (.app (.app (.app (.axm .eqRec [.zero, .zero])
        (.sort (.add .zero 1))) (.sort .zero)) (.sort .zero)) (.var 3 (.sort .zero)))
        (.sort .zero))
        (.app (.decl (.app (.axm .refl [.zero]) (.sort (.add .zero 1))) 0 []) (.sort .zero)))
      = none
    ∧ eqReduce 20 (.app (.app (.app (.app (.app (.app (.axm .eqRec [.zero, .zero])
        (.sort (.add .zero 1))) (.sort .zero)) (.sort .zero)) (.var 3 (.sort .zero)))
        (.sort .zero))
        (.app (.app (.axm .refl [.zero]) (.sort (.add .zero 1))) (.sort .zero)))
      = some (.var 3 (.sort .zero)) :=
  ⟨rfl, rfl, rfl, rfl⟩

/-- C7 (amended): the ι-reducer peels the full applicative spine and whnf-s
each segment of the `Eq_rec` spine and the scrutinee `p` itself — the spine
hypotheses below only constrain whnfs, so the segments themselves may be
arbitrary — but inside the whnf of `p` the function part of the `Refl` spine
is matched syntactically, without being whnf-ed: if it is not literally an
application the reducer fails (`axiom/equality.rs` lines 55-90, line 82). -/
theorem c7_spine_whnf_amended (n : Nat) (f6 p f5 b f4 r f3 m f2 a f1 A : Term)
    (ls : List Level)
    (h2 : whnf n f6 = .app f5 b) (h3 : whnf n f5 = .app f4 r)
    (h4 : whnf n f4 = .app f3 m) (h5 : whnf n f3 = .app f2 a)
    (h6 : whnf n f2 = .app f1 A) (h7 : whnf n f1.unfold = .axm .eqRec ls) :
    (∀ (g' y x : Term) (ls' : List Level), conversion n b a = true →
        whnf n p = .app (.app g' y) x → whnf n g'.unfold = .axm .refl ls' →
        eqReduce (n + 1) (.app f6 p) = some r)
    ∧ (∀ g x : Term, whnf n p = .app g x → (∀ g'' y'', g ≠ .app g'' y'') →
        eqReduce (n + 1) (.app f6 p) = none) := by
  constructor
  · intro g' y x ls' hc hp hg
    simp [eqReduce_unfold, h2, h3, h4, h5, h6, h7, hc, hp, hg]
  · intro g x hp hng
    simp only [eqReduce_unfold, h2, h3, h4, h5, h6, h7, hp]
    rcases hc : conversion n b a
    · simp
    · simp only [Bool.true_and]
      cases g with
      | app g'' y'' => exact absurd rfl (hng g'' y'')
      | var i ty => simp
      | sort l => simp
      | abs ty b2 => simp
      | prod ty b2 => simp
      | axm ax2 ls2 => simp
      | decl b2 ar2 ls2 => simp

/-- Witness for `c7_spine_whnf_amended`: the positive direction fires on a
fully explicit `Eq_rec` application with a two-applied `Refl` scrutinee. -/
theorem c7_spine_whnf_witness :
    eqReduce 20
      (.app (.app (.app (.app (.app (.app (.axm .eqRec [.zero, .zero]) (.sort (.add .zero 1)))
        (.sort .zero)) (.sort .zero)) (.var 3 (.sort .zero))) (.sort .zero))
        (.app (.app (.axm .refl [.zero]) (.sort (.add .zero 1))) (.sort .zero)))
      = some (.var 3 (.sort .zero)) :=
  (c7_spine_whnf_amended 19
    (.app (.app (.app (.app (.app (.axm .eqRec [.zero, .zero]) (.sort (.add .zero 1)))
      (.sort .zero)) (.sort .zero)) (.var 3 (.sort .zero))) (.sort .zero))
    (.app (.app (.axm .refl [.zero]) (.sort (.add .zero 1))) (.sort .zero))
    (.app (.app (.app (.app (.axm .eqRec [.zero, .zero]) (.sort (.add .zero 1)))
      (.sort .zero)) (.sort .zero)) (.var 3 (.sort .zero)))
    (.sort .zero)
    (.app (.app (.app (.axm .eqRec [.zero, .zero]) (.sort (.add .zero 1)))
      (.sort .zero)) (.sort .zero))
    (.var 3 (.sort .zero))
    (.app (.app (.axm .eqRec [.zero, .zero]) (.sort (.add .zero 1))) (.sort .zero))
    (.sort .zero)
    (.app (.axm .eqRec [.zero, .zero]) (.sort (.add .zero 1)))
    (.sort .zero)
    (.axm .eqRec [.zero, .zero])
    (.sort (.add .zero 1))
    [.zero, .zero]
    rfl rfl rfl rfl rfl rfl).1
    (.axm .refl [.zero]) (.sort (.add .zero 1)) (.sort .zero) [.zero] rfl rfl rfl

end Proost

namespace Proost

/-- C8: `bind_decl(name, d)` replaces any prior declaration binding of `name`,
and when `d` has arity 0 it additionally binds `d`'s body as a term under the
same name, so a subsequent `get_binding(name)` returns that body
(`memory/arena.rs` lines 129-137). -/
theorem c8_bind_decl (a : ArenaNames) (name : String) (d : Declaration) :
    getBindingDecl (bindDecl a name d) name = some d
    ∧ (d.arity = 0 → getBinding (bindDecl a name d) name = some d.term) := by
  obtain ⟨t, ar⟩ := d
  cases ar with
  | zero =>
    refine ⟨?_, fun _ => ?_⟩
    · simp [bindDecl, bind, getBindingDecl]
    · simp [bindDecl, bind, getBinding]
  | succ ar =>
    refine ⟨?_, fun h => ?_⟩
    · simp [bindDecl, getBindingDecl]
    · simp [Declaration.arity] at h

/-- Witness for `c8_bind_decl`: binding a 0-arity declaration makes both
tables answer under the bound name. -/
theorem c8_bind_decl_witness :
    getBindingDecl (bindDecl arena0 "id" ⟨.sort .zero, 0⟩) "id" = some ⟨.sort .zero, 0⟩
    ∧ getBinding (bindDecl arena0 "id" ⟨.sort .zero, 0⟩) "id" = some (.sort .zero) :=
  ⟨(c8_bind_decl arena0 "id" ⟨.sort .zero, 0⟩).1, (c8_bind_decl arena0 "id" ⟨.sort .zero, 0⟩).2 rfl⟩

/-- C9: type inference on `λx:(Prop→Prop). (λy:Prop. x y) x` fails with the
wrong-argument-type error reporting that the argument `x : Prop → Prop` was
supplied to `λy:Prop. x y` where a term of type `Prop` was expected, and the
error's trace is exactly the single breadcrumb `Right` — the error kind is
created at the inner application without a breadcrumb and one `Right` is
attached while unwinding out of the outer abstraction's body
(`type_checker.rs` lines 140-170, test `wrong_argument_type`). -/
theorem c9_wrong_argument_type_trace :
    infer 20 (.abs (.prod (.sort .zero) (.sort .zero)) (.app (.abs (.sort .zero)
      (.app (.var 2 (.prod (.sort .zero) (.sort .zero))) (.var 1 (.sort .zero))))
      (.var 1 (.prod (.sort .zero) (.sort .zero)))))
      = .error ⟨.wrongArgumentType
          (.abs (.sort .zero) (.app (.var 2 (.prod (.sort .zero) (.sort .zero)))
            (.var 1 (.sort .zero))))
          (.sort .zero)
          (.var 1 (.prod (.sort .zero) (.sort .zero)))
          (.prod (.sort .zero) (.sort .zero)), [.right]⟩ := rfl

/-- C10: binding a declaration of nonzero arity leaves the term name table
unchanged at every name, and leaves the declaration table unchanged at every
name other than the bound one (`memory/arena.rs` lines 129-137). -/
theorem c10_bind_decl_frame (a : ArenaNames) (name : String) (d : Declaration)
    (h : d.arity ≠ 0) :
    (∀ m, getBinding (bindDecl a name d) m = getBinding a m)
    ∧ (∀ m, m ≠ name → getBindingDecl (bindDecl a name d) m = getBindingDecl a m) := by
  obtain ⟨t, ar⟩ := d
  cases ar with
  | zero => simp [Declaration.arity] at h
  | succ ar =>
    refine ⟨fun m => ?_, fun m hm => ?_⟩
    · simp [bindDecl, getBinding]
    · simp [bindDecl, getBindingDecl, hm]

/-- Witness for `c10_bind_decl_frame`: binding an arity-2 declaration under
`"Eq"` does not create a term binding for `"Eq"` and does not disturb the
declaration binding of `"nat"`. -/
theorem c10_bind_decl_frame_witness :
    getBinding (bindDecl arena0 "Eq" ⟨.sort .zero, 2⟩) "Eq" = getBinding arena0 "Eq"
    ∧ getBindingDecl (bindDecl arena0 "Eq" ⟨.sort .zero, 2⟩) "nat" = getBindingDecl arena0 "nat" :=
  ⟨(c10_bind_decl_frame arena0 "Eq" ⟨.sort .zero, 2⟩ (by decide)).1 "Eq",
    (c10_bind_decl_frame arena0 "Eq" ⟨.sort .zero, 2⟩ (by decide)).2 "nat" (by decide)⟩

end Proost
